import Mathlib

/-!
# Verification of the deadline-tracking client (app.js / sw.js)

Shallow embedding of the pure logic of the repository:

* Calendar dates carry no time component in the app's data model, so a
  calendar day is embedded as an integer day number (days since an arbitrary
  epoch).  `getDaysRemaining` in app.js normalizes both the target date and
  "today" to local midnight and takes `Math.ceil` of the millisecond
  difference divided by a day; with both endpoints at midnight the quotient
  is exact, which the lemma `getDaysRemaining_eq` records.
* `saveRoutineChecks` (app.js, lines 152-170) is the one place where the
  code compares a *non-normalized* wall-clock instant (`new Date()` minus
  7 days) against midnight timestamps parsed from the stored `YYYY-MM-DD`
  keys, so for that function the embedding keeps the full millisecond
  timestamp `nowMs = t * msPerDay + h` with `0 ≤ h < msPerDay` (the system
  timezone is taken to be UTC so that the local date key and the UTC parse
  of a key agree).
* JavaScript strings stay `String`; arrays become `List`; the
  routine-checks object (a string-keyed map) becomes an association list
  `List (Int × List String)` keyed by day number, updated in place.
* `Array.prototype.sort` with comparator `daysA - daysB` is required to be
  stable by the ECMAScript specification (ES2019); it is embedded as a
  stable insertion sort `sortByDays` on the same key.
-/

def msPerDay : Int := 86400000

/-- `getDaysRemaining(dateStr)` of app.js, lines 196-202: both the target
date and today are normalized to midnight, so the ceiling division of the
millisecond difference is the exact quotient.  `t` is today's day number,
`date` the target's day number. -/
def getDaysRemaining (t date : Int) : Int :=
  (date * msPerDay - t * msPerDay) / msPerDay

theorem getDaysRemaining_eq (t date : Int) : getDaysRemaining t date = date - t := by
  unfold getDaysRemaining msPerDay
  rw [← Int.sub_mul, Int.mul_ediv_cancel]
  decide

/-- One-off deadline record (`ScheduleItem` of the data model; the objects
pushed by `saveSchedule` in app.js). -/
structure ScheduleItem where
  id : String
  title : String
  date : Int
  memo : String
deriving DecidableEq, Repr

/-- Recurring-task record (the objects pushed by `saveRoutine` in app.js). -/
structure Routine where
  id : String
  title : String
  frequency : String
  weekdays : List Int
  enabled : Bool
deriving DecidableEq, Repr

/-- To-do record (the objects pushed by `addTodo` in app.js);
`createdAt` is an opaque timestamp string. -/
structure TodoItem where
  id : String
  text : String
  completed : Bool
  createdAt : String
deriving DecidableEq, Repr

/-- An element of the merged dashboard feed.  Schedule items pass through
`updateDashboard` unchanged (their `isRoutine` property is absent, hence
falsy, embedded as `false`); routine-derived occurrences are built with
`isRoutine: true` and an empty memo. -/
structure FeedItem where
  id : String
  title : String
  date : Int
  memo : String
  isRoutine : Bool
deriving DecidableEq, Repr

/-- `getCountdownDisplay(days)` of app.js, lines 209-219; the record's
`class` property is `cls` here (`class` is reserved in Lean). -/
structure CountdownDisplay where
  text : String
  cls : String
deriving DecidableEq, Repr

def getCountdownDisplay (days : Int) : CountdownDisplay :=
  if days < 0 then
    { text := "期限切れ", cls := "countdown-overdue" }
  else if days = 0 then
    { text := "今日", cls := "countdown-today" }
  else if days ≤ 3 then
    { text := "あと" ++ toString days ++ "日", cls := "countdown-urgent" }
  else
    { text := "あと" ++ toString days ++ "日", cls := "countdown-normal" }

/-- `getCountdownDisplayNew(days)` of app.js, lines 365-375; the JS
`number` property mixes a number and the string `'!'`, embedded as the
string it renders to. -/
structure CountdownDisplayNew where
  number : String
  label : String
  cls : String
deriving DecidableEq, Repr

def getCountdownDisplayNew (days : Int) : CountdownDisplayNew :=
  if days < 0 then
    { number := toString (Int.natAbs days), label := "日超過", cls := "countdown-overdue" }
  else if days = 0 then
    { number := "!", label := "今日", cls := "countdown-today" }
  else if days ≤ 3 then
    { number := toString days, label := "日後", cls := "countdown-urgent" }
  else
    { number := toString days, label := "日後", cls := "countdown-normal" }

/-- C3: The urgency classification of both display functions partitions ℤ
into the four buckets `overdue | today | urgent | normal` with boundaries
at 0 and 3: `days < 0` → overdue, `days = 0` → today, `0 < days ≤ 3` →
urgent, `days > 3` → normal; and the two functions assign the same bucket
(CSS class) to every input. -/
theorem C3_classification_partition (days : Int) :
    (getCountdownDisplay days).cls = (getCountdownDisplayNew days).cls ∧
    ((getCountdownDisplay days).cls = "countdown-overdue" ↔ days < 0) ∧
    ((getCountdownDisplay days).cls = "countdown-today" ↔ days = 0) ∧
    ((getCountdownDisplay days).cls = "countdown-urgent" ↔ 0 < days ∧ days ≤ 3) ∧
    ((getCountdownDisplay days).cls = "countdown-normal" ↔ 3 < days) := by
  unfold getCountdownDisplay getCountdownDisplayNew
  split_ifs with h1 h2 h3 <;>
    refine ⟨rfl, ?_, ?_, ?_, ?_⟩ <;> simp <;> omega

/-! ## Routine occurrence resolution

`updateDashboard` (app.js lines 252-258) and `renderTodayRoutines`
(lines 631-637) contain the same two chained `filter` calls verbatim:
first `r => r.enabled`, then the frequency test.  They are embedded once
and used for both call sites. -/

/-- The inner frequency predicate of the second `filter`:
`if (r.frequency === 'daily') return true;
 if (r.frequency === 'weekly' && r.weekdays.includes(dayOfWeek)) return true;
 return false;` -/
def routineDueOnWeekday (dayOfWeek : Int) (r : Routine) : Bool :=
  if r.frequency = "daily" then true
  else if r.frequency = "weekly" ∧ dayOfWeek ∈ r.weekdays then true
  else false

/-- The two chained filters shared by `updateDashboard` and
`renderTodayRoutines`: enabled routines that are due on today's weekday. -/
def todayRoutinesOf (routines : List Routine) (dayOfWeek : Int) : List Routine :=
  (routines.filter (fun r => r.enabled)).filter (routineDueOnWeekday dayOfWeek)

theorem mem_todayRoutinesOf (routines : List Routine) (dayOfWeek : Int) (r : Routine) :
    r ∈ todayRoutinesOf routines dayOfWeek ↔
      r ∈ routines ∧ r.enabled = true ∧
        (r.frequency = "daily" ∨ (r.frequency = "weekly" ∧ dayOfWeek ∈ r.weekdays)) := by
  unfold todayRoutinesOf routineDueOnWeekday
  simp only [List.mem_filter, decide_eq_true_eq]
  constructor
  · rintro ⟨⟨hmem, hen⟩, hdue⟩
    refine ⟨hmem, hen, ?_⟩
    split_ifs at hdue with h1 h2
    · exact Or.inl h1
    · exact Or.inr h2
  · rintro ⟨hmem, hen, hdue⟩
    refine ⟨⟨hmem, hen⟩, ?_⟩
    split_ifs with h1 h2
    · rfl
    · rfl
    · rcases hdue with h | h
      · exact absurd h h1
      · exact absurd h h2

/-- C8: a routine is resolved as due today iff it is in the stored list,
enabled, and either daily, or weekly with today's weekday among its
weekdays; disabled routines never appear. -/
theorem C8_dueToday_membership (routines : List Routine) (dayOfWeek : Int) (r : Routine) :
    r ∈ todayRoutinesOf routines dayOfWeek ↔
      r ∈ routines ∧ r.enabled = true ∧
        (r.frequency = "daily" ∨ (r.frequency = "weekly" ∧ dayOfWeek ∈ r.weekdays)) :=
  mem_todayRoutinesOf routines dayOfWeek r

/-! ## Merged dashboard feed -/

/-- The `.map` of `updateDashboard` lines 259-265: a due routine folded
into a feed item with the namespaced id `routine_<id>`, today's date and
`isRoutine: true` (the JS object's `type: 'routine'` and absent `memo`
are the empty memo here). -/
def toRoutineFeedItem (todayNum : Int) (r : Routine) : FeedItem :=
  { id := "routine_" ++ r.id, title := r.title, date := todayNum, memo := "", isRoutine := true }

/-- A stored schedule item viewed as a feed item: `updateDashboard` passes
the object through unchanged, and its absent `isRoutine` property is falsy. -/
def toScheduleFeedItem (s : ScheduleItem) : FeedItem :=
  { id := s.id, title := s.title, date := s.date, memo := s.memo, isRoutine := false }

/-- Insertion of one element into a list sorted ascending by `key`,
placed before the first element of key ≥ its own: the insertion step of a
stable sort. -/
def insertByKey (key : FeedItem → Int) (x : FeedItem) : List FeedItem → List FeedItem
  | [] => [x]
  | y :: ys => if key x ≤ key y then x :: y :: ys else y :: insertByKey key x ys

/-- Stable sort ascending by `key`, embedding the ES2019-stable
`allItems.sort((a, b) => daysA - daysB)` of `updateDashboard` lines 278-282. -/
def sortByKey (key : FeedItem → Int) : List FeedItem → List FeedItem
  | [] => []
  | x :: xs => insertByKey key x (sortByKey key xs)

/-- The visibility filter of `updateDashboard` lines 268 and 272 (the same
expression is evaluated twice in the code, once for stats and once for the
list): schedule items with `getDaysRemaining(s.date) >= -14`. -/
def visibleSchedules (todayNum : Int) (schedules : List ScheduleItem) : List ScheduleItem :=
  schedules.filter (fun s => getDaysRemaining todayNum s.date ≥ -14)

/-- The ordered merged feed handed to `renderScheduleList` by
`updateDashboard` lines 275-285: visible schedules concatenated with
today's routine occurrences, sorted ascending by days remaining. -/
def updateDashboardFeed (todayNum dayOfWeek : Int)
    (schedules : List ScheduleItem) (routines : List Routine) : List FeedItem :=
  let todayRoutines := (todayRoutinesOf routines dayOfWeek).map (toRoutineFeedItem todayNum)
  let validSchedules := (visibleSchedules todayNum schedules).map toScheduleFeedItem
  sortByKey (fun item => getDaysRemaining todayNum item.date) (validSchedules ++ todayRoutines)

theorem mem_insertByKey (key : FeedItem → Int) (x a : FeedItem) (l : List FeedItem) :
    a ∈ insertByKey key x l ↔ a = x ∨ a ∈ l := by
  induction l with
  | nil => simp [insertByKey]
  | cons y ys ih =>
    unfold insertByKey
    split_ifs
    · simp
    · simp only [List.mem_cons, ih]
      tauto

theorem mem_sortByKey (key : FeedItem → Int) (a : FeedItem) (l : List FeedItem) :
    a ∈ sortByKey key l ↔ a ∈ l := by
  induction l with
  | nil => simp [sortByKey]
  | cons x xs ih => simp [sortByKey, mem_insertByKey, ih]

theorem pairwise_insertByKey (key : FeedItem → Int) (x : FeedItem) (l : List FeedItem)
    (h : l.Pairwise (fun a b => key a ≤ key b)) :
    (insertByKey key x l).Pairwise (fun a b => key a ≤ key b) := by
  induction l with
  | nil => simp [insertByKey]
  | cons y ys ih =>
    rw [List.pairwise_cons] at h
    unfold insertByKey
    split_ifs with hxy
    · refine List.Pairwise.cons ?_ (List.Pairwise.cons h.1 h.2)
      intro b hb
      rcases List.mem_cons.mp hb with rfl | hb
      · exact hxy
      · exact le_trans hxy (h.1 b hb)
    · refine List.Pairwise.cons ?_ (ih h.2)
      intro b hb
      rcases (mem_insertByKey key x b ys).mp hb with rfl | hb
      · omega
      · exact h.1 b hb

theorem pairwise_sortByKey (key : FeedItem → Int) (l : List FeedItem) :
    (sortByKey key l).Pairwise (fun a b => key a ≤ key b) := by
  induction l with
  | nil => simp [sortByKey]
  | cons x xs ih => exact pairwise_insertByKey key x _ ih

theorem filter_insertByKey (key : FeedItem → Int) (x : FeedItem) (l : List FeedItem) (k : Int) :
    (insertByKey key x l).filter (fun a => key a = k) =
      if key x = k then x :: l.filter (fun a => key a = k)
      else l.filter (fun a => key a = k) := by
  induction l with
  | nil =>
    unfold insertByKey
    split_ifs with h <;> simp [List.filter, h]
  | cons y ys ih =>
    unfold insertByKey
    by_cases hxy : key x ≤ key y
    · rw [if_pos hxy]
      by_cases hxk : key x = k
      · simp [List.filter_cons, hxk]
      · simp [List.filter_cons, hxk]
    · rw [if_neg hxy]
      by_cases hyk : key y = k
      · by_cases hxk : key x = k
        · exfalso
          omega
        · simp [List.filter_cons, hyk, ih, hxk]
      · simp [List.filter_cons, hyk, ih]

theorem filter_sortByKey (key : FeedItem → Int) (l : List FeedItem) (k : Int) :
    (sortByKey key l).filter (fun a => key a = k) = l.filter (fun a => key a = k) := by
  induction l with
  | nil => rfl
  | cons x xs ih =>
    show (insertByKey key x (sortByKey key xs)).filter _ = _
    rw [filter_insertByKey, ih]
    by_cases hxk : key x = k <;> simp [List.filter_cons, hxk]

/-- C6: the merged feed is sorted ascending by days remaining, and for each
value `k` of days remaining, the feed items with that value appear in
exactly the original concatenation order — all (visible) schedule items
first, in stored order, then all routine-derived occurrences, in stored
order.  In particular a schedule item always precedes a routine occurrence
among items tied on days remaining. -/
theorem C6_feed_sorted_and_stable (todayNum dayOfWeek : Int)
    (schedules : List ScheduleItem) (routines : List Routine) :
    (updateDashboardFeed todayNum dayOfWeek schedules routines).Pairwise
        (fun a b => getDaysRemaining todayNum a.date ≤ getDaysRemaining todayNum b.date) ∧
    ∀ k : Int,
      (updateDashboardFeed todayNum dayOfWeek schedules routines).filter
          (fun a => getDaysRemaining todayNum a.date = k) =
        ((visibleSchedules todayNum schedules).map toScheduleFeedItem).filter
            (fun a => getDaysRemaining todayNum a.date = k) ++
        ((todayRoutinesOf routines dayOfWeek).map (toRoutineFeedItem todayNum)).filter
            (fun a => getDaysRemaining todayNum a.date = k) := by
  constructor
  · exact pairwise_sortByKey _ _
  · intro k
    show (sortByKey _ _).filter _ = _
    rw [filter_sortByKey, List.filter_append]

/-! ## Routine completion log

The stored object under `deadline_routine_checks` maps `YYYY-MM-DD` keys to
arrays of routine ids.  A key is embedded as its day number; `new Date(key)`
is then `key * msPerDay` and `new Date()` at the moment of a save is
`nowMs = t * msPerDay + h` where `t` is today's day number and
`0 ≤ h < msPerDay` is the wall-clock time of day (system timezone UTC, so
`getTodayString()` also yields `t`). -/

/-- First-match association-list lookup, the JS property read `checks[key]`. -/
def lookupKey (k : Int) : List (Int × List String) → Option (List String)
  | [] => none
  | e :: rest => if e.1 = k then some e.2 else lookupKey k rest

/-- JS property assignment `checks[key] = v`: replace in place if the key
exists, append otherwise. -/
def setKey (k : Int) (v : List String) : List (Int × List String) → List (Int × List String)
  | [] => [(k, v)]
  | e :: rest => if e.1 = k then (k, v) :: rest else e :: setKey k v rest

/-- `getRoutineChecks()` of app.js lines 137-146: today's entry of the log,
or the empty array when absent. -/
def getRoutineChecksOf (todayKey : Int) (checks : List (Int × List String)) : List String :=
  (lookupKey todayKey checks).getD []

/-- `saveRoutineChecks(checkedIds)` of app.js lines 152-170: every key `key`
with `new Date(key) < weekAgo` (where `weekAgo` is the save instant minus
7 days, time of day included) is deleted, then today's key is assigned
`checkedIds`. -/
def saveRoutineChecks (nowMs : Int) (checkedIds : List String)
    (checks : List (Int × List String)) : List (Int × List String) :=
  let todayKey := nowMs / msPerDay
  let pruned := checks.filter (fun e => ¬ (e.1 * msPerDay < nowMs - 7 * msPerDay))
  setKey todayKey checkedIds pruned

/-- `toggleRoutineCheck(id)` of app.js lines 665-678: read today's array,
remove the id's first occurrence if present (`splice` at `indexOf`) or
append it (`push`), then persist through `saveRoutineChecks`. -/
def toggleRoutineCheck (nowMs : Int) (id : String)
    (checks : List (Int × List String)) : List (Int × List String) :=
  let cs := getRoutineChecksOf (nowMs / msPerDay) checks
  let cs' := if id ∈ cs then cs.erase id else cs ++ [id]
  saveRoutineChecks nowMs cs' checks

theorem lookupKey_setKey (k k' : Int) (v : List String) (l : List (Int × List String)) :
    lookupKey k' (setKey k v l) = if k' = k then some v else lookupKey k' l := by
  induction l with
  | nil =>
    unfold setKey lookupKey
    by_cases h : k' = k
    · simp [h]
    · simp [h, Ne.symm h, lookupKey]
  | cons e rest ih =>
    by_cases he : e.1 = k
    · rw [show setKey k v (e :: rest) = (k, v) :: rest by simp [setKey, he]]
      by_cases h : k' = k
      · simp [lookupKey, h]
      · simp [lookupKey, h, show ¬ k = k' from fun hh => h hh.symm,
          show ¬ e.1 = k' from fun hh => h (hh ▸ he)]
    · rw [show setKey k v (e :: rest) = e :: setKey k v rest by simp [setKey, he]]
      by_cases hek : e.1 = k'
      · have h : ¬ k' = k := fun hkk => he (hkk ▸ hek)
        simp [lookupKey, hek, h]
      · simp [lookupKey, hek, ih]

theorem lookupKey_filter (keep : Int → Bool) (k : Int) (l : List (Int × List String)) :
    lookupKey k (l.filter (fun e => keep e.1)) =
      if keep k then lookupKey k l else none := by
  induction l with
  | nil => simp [lookupKey]
  | cons e rest ih =>
    by_cases hek : e.1 = k
    · subst hek
      by_cases hkeep : keep e.1
      · simp [List.filter_cons, hkeep, lookupKey, ih]
      · simp only [List.filter_cons, hkeep]
        simp only [Bool.false_eq_true, if_false] at ih ⊢
        simp [ih, hkeep]
    · by_cases hkeep : keep e.1
      · simp [List.filter_cons, hkeep, lookupKey, hek, ih]
      · simp [List.filter_cons, hkeep, lookupKey, hek, ih]

theorem todayKey_eq (t h : Int) (hh0 : 0 ≤ h) (hh1 : h < msPerDay) :
    (t * msPerDay + h) / msPerDay = t := by
  rw [Int.add_comm, Int.add_mul_ediv_right _ _ (by unfold msPerDay; decide : msPerDay ≠ 0),
    Int.ediv_eq_zero_of_lt hh0 hh1, Int.zero_add]

/-- C4 (amended): a save at instant `t * msPerDay + h` (day `t`, time of
day `h`) first writes `checkedIds` under today's key `t`; any other key `k`
survives exactly when `k * msPerDay` is not strictly below the save instant
minus 7 days — that is, when `k ≥ t - 6`, or `k = t - 7` and the save
happens exactly at midnight (`h = 0`).  A key at exactly `t - 7` is
therefore pruned by any save that occurs strictly after midnight, while
keys at `t - 6` and newer are always retained (so the spec's example
`{t-10, t-8, t-6, t} ↦ {t-6, t}` does hold). -/
theorem C4_pruning_boundary (t h : Int) (hh0 : 0 ≤ h) (hh1 : h < msPerDay)
    (checkedIds : List String) (checks : List (Int × List String)) (k : Int) :
    lookupKey k (saveRoutineChecks (t * msPerDay + h) checkedIds checks) =
      if k = t then some checkedIds
      else if t - 6 ≤ k ∨ (k = t - 7 ∧ h = 0) then lookupKey k checks
      else none := by
  unfold saveRoutineChecks
  rw [todayKey_eq t h hh0 hh1, lookupKey_setKey]
  have h1 := lookupKey_filter
    (fun x => decide (¬ (x * msPerDay < t * msPerDay + h - 7 * msPerDay))) k checks
  simp only [decide_eq_true_eq] at h1
  rw [h1]
  by_cases hk : k = t
  · simp [hk]
  · rw [if_neg hk, if_neg hk]
    by_cases hkeep : ¬ (k * msPerDay < t * msPerDay + h - 7 * msPerDay)
    · rw [if_pos hkeep, if_pos]
      unfold msPerDay at hkeep hh1
      omega
    · rw [if_neg hkeep, if_neg]
      unfold msPerDay at hkeep hh1
      omega

/-- C4 counterexample for the claim as stated: the claim says the key at
exactly `t - 7` is retained, but a save one millisecond after midnight on
day `t = 100` deletes the entry stored under key `93 = t - 7`. -/
theorem C4_counterexample :
    lookupKey 93 (saveRoutineChecks (100 * msPerDay + 1) ["done"] [(93, ["a"])]) = none ∧
    (93 : Int) = 100 - 7 := by
  constructor
  · rfl
  · decide

/-- Witness instantiating `C4_pruning_boundary` on the spec's own example:
entries at days `t-10, t-8, t-6, t` (`t = 100`), saved at one millisecond
past midnight of day `t`; the keys `90` and `92` are pruned, `94` survives,
and `100` now holds the written ids. -/
theorem C4_pruning_boundary_witness :
    lookupKey 90 (saveRoutineChecks (100 * msPerDay + 1) ["x"]
      [(90, ["a"]), (92, ["b"]), (94, ["c"]), (100, ["d"])]) = none ∧
    lookupKey 92 (saveRoutineChecks (100 * msPerDay + 1) ["x"]
      [(90, ["a"]), (92, ["b"]), (94, ["c"]), (100, ["d"])]) = none ∧
    lookupKey 94 (saveRoutineChecks (100 * msPerDay + 1) ["x"]
      [(90, ["a"]), (92, ["b"]), (94, ["c"]), (100, ["d"])]) = some ["c"] ∧
    lookupKey 100 (saveRoutineChecks (100 * msPerDay + 1) ["x"]
      [(90, ["a"]), (92, ["b"]), (94, ["c"]), (100, ["d"])]) = some ["x"] := by
  refine ⟨?_, ?_, ?_, ?_⟩ <;>
    rw [C4_pruning_boundary 100 1 (by decide) (by decide)] <;> decide

/-! ## Dashboard aggregation over the stored state -/

/-- The persistent collections read through the storage gateway
(`getSchedules`, `getRoutines`, `getTodos`, and the raw
`deadline_routine_checks` object). -/
structure Storage where
  schedules : List ScheduleItem
  routines : List Routine
  todos : List TodoItem
  routineChecks : List (Int × List String)
deriving DecidableEq, Repr

/-- The three counters set by `updateStats` (app.js lines 292-307). -/
structure Stats where
  total : Nat
  urgent : Nat
  overdue : Nat
deriving DecidableEq, Repr

/-- `updateStats(schedules)` of app.js lines 292-307, applied by
`updateDashboard` to the already-filtered `recentSchedules`:
`total` is the length, `urgent` counts `days >= 0 && days <= 3`,
`overdue` counts `days < 0 && days >= -14`. -/
def updateStats (todayNum : Int) (schedules : List ScheduleItem) : Stats :=
  { total := schedules.length
  , urgent := (schedules.filter (fun s =>
      getDaysRemaining todayNum s.date ≥ 0 ∧ getDaysRemaining todayNum s.date ≤ 3)).length
  , overdue := (schedules.filter (fun s =>
      getDaysRemaining todayNum s.date < 0 ∧ getDaysRemaining todayNum s.date ≥ -14)).length }

/-- `updateDashboard()` of app.js lines 244-286 as a function of the stored
state: it reads `getSchedules()` and `getRoutines()`, feeds the
`>= -14`-filtered schedules to `updateStats`, renders the sorted merged
feed, and performs no store write at all — the returned state is the input
state.  `todayNum` is today's day number and `dayOfWeek` its weekday
(`today.getDay()`), supplied externally.  The routine-checks collection is
never read. -/
def updateDashboard (st : Storage) (todayNum dayOfWeek : Int) :
    Storage × Stats × List FeedItem :=
  (st,
   updateStats todayNum (visibleSchedules todayNum st.schedules),
   updateDashboardFeed todayNum dayOfWeek st.schedules st.routines)

theorem mem_updateDashboardFeed (todayNum dayOfWeek : Int)
    (schedules : List ScheduleItem) (routines : List Routine) (item : FeedItem) :
    item ∈ updateDashboardFeed todayNum dayOfWeek schedules routines ↔
      (∃ s ∈ schedules, getDaysRemaining todayNum s.date ≥ -14 ∧ item = toScheduleFeedItem s) ∨
      (∃ r ∈ todayRoutinesOf routines dayOfWeek, item = toRoutineFeedItem todayNum r) := by
  unfold updateDashboardFeed visibleSchedules
  rw [mem_sortByKey, List.mem_append]
  simp only [List.mem_map, List.mem_filter, decide_eq_true_eq]
  constructor
  · rintro (⟨s, ⟨hs, hvis⟩, heq⟩ | ⟨r, hr, heq⟩)
    · exact Or.inl ⟨s, hs, hvis, heq.symm⟩
    · exact Or.inr ⟨r, hr, heq.symm⟩
  · rintro (⟨s, hs, hvis, heq⟩ | ⟨r, hr, heq⟩)
    · exact Or.inl ⟨s, ⟨hs, hvis⟩, heq.symm⟩
    · exact Or.inr ⟨r, hr, heq.symm⟩

/-- A concrete enabled daily routine. -/
def routineR1 : Routine :=
  { id := "r1", title := "stretch", frequency := "daily", weekdays := [], enabled := true }

/-- A stored state in which routine `r1` is already checked off today
(day 0): its id sits in today's completion set. -/
def storageC1 : Storage :=
  { schedules := [], routines := [routineR1], todos := [], routineChecks := [(0, ["r1"])] }

/-- C1 counterexample: the claim says a routine whose id is in today's
completion set is excluded from the merged feed, but `updateDashboard`
never reads the completion log — routine `r1` is checked off today
(`"r1" ∈` today's completion set) and its derived occurrence is still in
the feed. -/
theorem C1_counterexample :
    "r1" ∈ getRoutineChecksOf 0 storageC1.routineChecks ∧
    toRoutineFeedItem 0 routineR1 ∈ (updateDashboard storageC1 0 2).2.2 := by
  constructor
  · decide
  · rw [show (updateDashboard storageC1 0 2).2.2
        = [toRoutineFeedItem 0 routineR1] from rfl]
    exact List.mem_singleton.mpr rfl

/-- C1 (amended): a routine-derived occurrence for `r` is in the merged
feed iff `r` is stored, enabled and due on today's weekday — the
completion log plays no part, so a routine already checked off today still
appears (second conjunct: the feed is unchanged under any replacement of
the routine-checks collection). -/
theorem C1_routine_occurrence_iff (st : Storage) (todayNum dayOfWeek : Int)
    (item : FeedItem) (hR : item.isRoutine = true) :
    (item ∈ (updateDashboard st todayNum dayOfWeek).2.2 ↔
      ∃ r ∈ st.routines, r.enabled = true ∧
        (r.frequency = "daily" ∨ (r.frequency = "weekly" ∧ dayOfWeek ∈ r.weekdays)) ∧
        item = toRoutineFeedItem todayNum r) ∧
    ∀ c, (updateDashboard { st with routineChecks := c } todayNum dayOfWeek).2.2 =
           (updateDashboard st todayNum dayOfWeek).2.2 := by
  constructor
  · rw [show (updateDashboard st todayNum dayOfWeek).2.2
        = updateDashboardFeed todayNum dayOfWeek st.schedules st.routines from rfl]
    rw [mem_updateDashboardFeed]
    constructor
    · rintro (⟨s, _, _, heq⟩ | ⟨r, hr, heq⟩)
      · exfalso
        rw [heq] at hR
        simp [toScheduleFeedItem] at hR
      · obtain ⟨hmem, hen, hdue⟩ := (mem_todayRoutinesOf st.routines dayOfWeek r).mp hr
        exact ⟨r, hmem, hen, hdue, heq⟩
    · rintro ⟨r, hmem, hen, hdue, heq⟩
      exact Or.inr ⟨r, (mem_todayRoutinesOf st.routines dayOfWeek r).mpr ⟨hmem, hen, hdue⟩, heq⟩
  · intro c
    rfl

/-- Witness for `C1_routine_occurrence_iff`: applying it to the concrete
state `storageC1`, the daily enabled routine `r1`'s occurrence is in the
feed. -/
theorem C1_routine_occurrence_iff_witness :
    toRoutineFeedItem 0 routineR1 ∈ (updateDashboard storageC1 0 2).2.2 :=
  (C1_routine_occurrence_iff storageC1 0 2 (toRoutineFeedItem 0 routineR1) rfl).1.mpr
    ⟨routineR1, by decide, rfl, Or.inl rfl, rfl⟩

/-- A schedule item 20 days overdue relative to day 0. -/
def scheduleOld : ScheduleItem := { id := "s-old", title := "old project", date := -20, memo := "" }

/-- A stored state whose only schedule item is 20 days overdue. -/
def storageC5 : Storage :=
  { schedules := [scheduleOld], routines := [], todos := [], routineChecks := [] }

/-- C5: a schedule-derived item is in the rendered merged feed iff it comes
from a stored schedule with `daysRemaining ≥ -14`; the dashboard's `total`
counter counts exactly the `≥ -14` survivors; prepending a schedule item
that is overdue by more than 14 days changes none of the three counters;
and `updateDashboard` leaves the stored state untouched (hidden, not
deleted). -/
theorem C5_visibility_window (st : Storage) (todayNum dayOfWeek : Int)
    (item : FeedItem) (hS : item.isRoutine = false)
    (x : ScheduleItem) (hx : getDaysRemaining todayNum x.date < -14) :
    (item ∈ (updateDashboard st todayNum dayOfWeek).2.2 ↔
      ∃ s ∈ st.schedules, getDaysRemaining todayNum s.date ≥ -14 ∧
        item = toScheduleFeedItem s) ∧
    (updateDashboard st todayNum dayOfWeek).2.1.total
        = (visibleSchedules todayNum st.schedules).length ∧
    (updateDashboard { st with schedules := x :: st.schedules } todayNum dayOfWeek).2.1
        = (updateDashboard st todayNum dayOfWeek).2.1 ∧
    (updateDashboard st todayNum dayOfWeek).1 = st := by
  have hvis : visibleSchedules todayNum (x :: st.schedules)
      = visibleSchedules todayNum st.schedules := by
    unfold visibleSchedules
    rw [List.filter_cons]
    simp only [decide_eq_true_eq]
    rw [if_neg (by omega)]
  refine ⟨?_, rfl, ?_, rfl⟩
  · rw [show (updateDashboard st todayNum dayOfWeek).2.2
        = updateDashboardFeed todayNum dayOfWeek st.schedules st.routines from rfl,
      mem_updateDashboardFeed]
    constructor
    · rintro (h | ⟨r, _, heq⟩)
      · exact h
      · exfalso
        rw [heq] at hS
        simp [toRoutineFeedItem] at hS
    · exact Or.inl
  · show updateStats todayNum (visibleSchedules todayNum (x :: st.schedules)) = _
    rw [hvis]
    rfl

/-- Witness for `C5_visibility_window`: in the concrete state `storageC5`
the schedule item dated 20 days in the past is absent from the feed. -/
theorem C5_visibility_window_witness :
    toScheduleFeedItem scheduleOld ∉ (updateDashboard storageC5 0 0).2.2 := by
  intro hmem
  have h := (C5_visibility_window storageC5 0 0 (toScheduleFeedItem scheduleOld) rfl
    scheduleOld (by decide)).1.mp hmem
  revert h
  decide

/-- A schedule item due exactly today relative to day 0. -/
def scheduleToday : ScheduleItem := { id := "s1", title := "report", date := 0, memo := "" }

/-- A stored state whose only schedule item is due today. -/
def storageC2 : Storage :=
  { schedules := [scheduleToday], routines := [], todos := [], routineChecks := [] }

/-- C2 counterexample: the claim says an item with `daysRemaining == 0`
is NOT counted in the urgent summary count, but `updateStats` counts
`days >= 0 && days <= 3`, so the single due-today schedule item yields
`urgent = 1`, not `0`. -/
theorem C2_counterexample :
    getDaysRemaining 0 scheduleToday.date = 0 ∧
    (updateDashboard storageC2 0 0).2.1.urgent = 1 := by
  constructor
  · rfl
  · rfl

theorem clsNew_today_or_urgent (d : Int) :
    ((getCountdownDisplayNew d).cls = "countdown-today" ∨
     (getCountdownDisplayNew d).cls = "countdown-urgent") ↔ (0 ≤ d ∧ d ≤ 3) := by
  unfold getCountdownDisplayNew
  split_ifs <;> simp <;> omega

theorem clsNew_overdue_iff (d : Int) :
    (getCountdownDisplayNew d).cls = "countdown-overdue" ↔ d < 0 := by
  unfold getCountdownDisplayNew
  split_ifs <;> simp <;> omega

/-- C2 (amended): the urgent summary counter counts exactly the visible
schedule items with `0 ≤ daysRemaining ≤ 3`, i.e. the items the list
rendering classifies as `today` **or** `urgent` — a due-today item is
counted in `urgent` even though the list styles it `today`, so the summary
and the per-item classification do NOT share the boundary at 0; the
overdue counter counts exactly the visible items classified `overdue`. -/
theorem C2_urgent_count_buckets (st : Storage) (todayNum dayOfWeek : Int) :
    (updateDashboard st todayNum dayOfWeek).2.1.urgent =
      ((visibleSchedules todayNum st.schedules).filter (fun s =>
          (getCountdownDisplayNew (getDaysRemaining todayNum s.date)).cls = "countdown-today"
          ∨ (getCountdownDisplayNew (getDaysRemaining todayNum s.date)).cls
              = "countdown-urgent")).length ∧
    (updateDashboard st todayNum dayOfWeek).2.1.overdue =
      ((visibleSchedules todayNum st.schedules).filter (fun s =>
          (getCountdownDisplayNew (getDaysRemaining todayNum s.date)).cls
            = "countdown-overdue")).length := by
  constructor
  · rw [show (updateDashboard st todayNum dayOfWeek).2.1.urgent
        = ((visibleSchedules todayNum st.schedules).filter (fun s =>
            getDaysRemaining todayNum s.date ≥ 0 ∧
              getDaysRemaining todayNum s.date ≤ 3)).length from rfl]
    refine congrArg List.length (List.filter_congr ?_)
    intro s _
    rw [decide_eq_decide]
    exact (clsNew_today_or_urgent (getDaysRemaining todayNum s.date)).symm
  · rw [show (updateDashboard st todayNum dayOfWeek).2.1.overdue
        = ((visibleSchedules todayNum st.schedules).filter (fun s =>
            getDaysRemaining todayNum s.date < 0 ∧
              getDaysRemaining todayNum s.date ≥ -14)).length from rfl]
    refine congrArg List.length (List.filter_congr ?_)
    intro s hs
    have hvis : getDaysRemaining todayNum s.date ≥ -14 := by
      unfold visibleSchedules at hs
      exact of_decide_eq_true (List.mem_filter.mp hs).2
    rw [decide_eq_decide, clsNew_overdue_iff]
    omega

theorem getRoutineChecksOf_save (t h : Int) (hh0 : 0 ≤ h) (hh1 : h < msPerDay)
    (v : List String) (checks : List (Int × List String)) :
    getRoutineChecksOf t (saveRoutineChecks (t * msPerDay + h) v checks) = v := by
  unfold getRoutineChecksOf saveRoutineChecks
  rw [todayKey_eq t h hh0 hh1, lookupKey_setKey, if_pos rfl]
  rfl

/-- C7 counterexample: the claim says two toggles return the completion log
to its original state, but toggling `"a"` twice on the log
`{day 0 ↦ ["a", "b"]}` (at midnight of day 0, so pruning removes nothing)
yields `{day 0 ↦ ["b", "a"]}`: the removed id is re-appended at the end,
so the stored log differs from the original. -/
theorem C7_counterexample :
    toggleRoutineCheck 0 "a" (toggleRoutineCheck 0 "a" [(0, ["a", "b"])])
      ≠ [(0, ["a", "b"])] := by
  decide

theorem getRoutineChecksOf_toggle (t h : Int) (hh0 : 0 ≤ h) (hh1 : h < msPerDay)
    (id : String) (checks : List (Int × List String)) :
    getRoutineChecksOf t (toggleRoutineCheck (t * msPerDay + h) id checks)
      = if id ∈ getRoutineChecksOf t checks
        then (getRoutineChecksOf t checks).erase id
        else getRoutineChecksOf t checks ++ [id] := by
  unfold toggleRoutineCheck
  rw [todayKey_eq t h hh0 hh1, getRoutineChecksOf_save t h hh0 hh1]

/-- C7 (amended): toggling completion is an involution on *membership* of
today's completion set (assuming today's stored id array has no
duplicates, an invariant of toggling): the first toggle flips the id's
membership, and a second toggle restores the membership of every id —
though not necessarily the array order, and each save also prunes log
keys older than the 7-day horizon. -/
theorem C7_toggle_membership (t h : Int) (hh0 : 0 ≤ h) (hh1 : h < msPerDay)
    (id : String) (checks : List (Int × List String))
    (hnd : (getRoutineChecksOf t checks).Nodup) :
    (id ∈ getRoutineChecksOf t (toggleRoutineCheck (t * msPerDay + h) id checks) ↔
      id ∉ getRoutineChecksOf t checks) ∧
    ∀ x, x ∈ getRoutineChecksOf t
            (toggleRoutineCheck (t * msPerDay + h) id
              (toggleRoutineCheck (t * msPerDay + h) id checks)) ↔
          x ∈ getRoutineChecksOf t checks := by
  have hA := getRoutineChecksOf_toggle t h hh0 hh1 id checks
  have hB := getRoutineChecksOf_toggle t h hh0 hh1 id
    (toggleRoutineCheck (t * msPerDay + h) id checks)
  rw [hA] at hB
  by_cases hmem : id ∈ getRoutineChecksOf t checks
  · rw [if_pos hmem] at hA hB
    have hnotmem : id ∉ (getRoutineChecksOf t checks).erase id := by
      rw [hnd.mem_erase_iff]
      simp
    rw [if_neg hnotmem] at hB
    refine ⟨?_, ?_⟩
    · rw [hA]
      simp [hnotmem, hmem]
    · intro x
      rw [hB, List.mem_append, hnd.mem_erase_iff]
      constructor
      · rintro (⟨_, hx⟩ | hx)
        · exact hx
        · rw [List.mem_singleton.mp hx]
          exact hmem
      · intro hx
        by_cases hxid : x = id
        · exact Or.inr (by rw [hxid]; exact List.mem_singleton.mpr rfl)
        · exact Or.inl ⟨hxid, hx⟩
  · rw [if_neg hmem] at hA hB
    have hmem1 : id ∈ getRoutineChecksOf t checks ++ [id] := by
      rw [List.mem_append]
      exact Or.inr (List.mem_singleton.mpr rfl)
    rw [if_pos hmem1, List.erase_append_right _ hmem, List.erase_cons_head,
      List.append_nil] at hB
    refine ⟨?_, ?_⟩
    · rw [hA]
      simp [hmem1, hmem]
    · intro x
      rw [hB]

/-- Witness for `C7_toggle_membership`: concrete log `{day 0 ↦ ["a","b"]}`
toggled twice on `"a"` at midnight of day 0; membership of `"b"` (and of
every id) is unchanged, and the first toggle removes `"a"`. -/
theorem C7_toggle_membership_witness :
    ("a" ∈ getRoutineChecksOf 0 (toggleRoutineCheck (0 * msPerDay + 0) "a" [(0, ["a", "b"])]) ↔
      "a" ∉ getRoutineChecksOf 0 [((0 : Int), ["a", "b"])]) ∧
    ("b" ∈ getRoutineChecksOf 0
        (toggleRoutineCheck (0 * msPerDay + 0) "a"
          (toggleRoutineCheck (0 * msPerDay + 0) "a" [(0, ["a", "b"])])) ↔
      "b" ∈ getRoutineChecksOf 0 [((0 : Int), ["a", "b"])]) := by
  have h := C7_toggle_membership 0 0 (by decide) (by decide) "a" [(0, ["a", "b"])] (by decide)
  exact ⟨h.1, h.2 "b"⟩

/-! ## Offline asset cache (sw.js)

The install handler runs `caches.open(CACHE_NAME).then(cache =>
cache.addAll(ASSETS_TO_CACHE))` inside `event.waitUntil`: `addAll` fetches
every listed asset and stores each response; a failed fetch rejects the
promise, `waitUntil` sees the rejection and the install attempt fails.
The embedding models the outcome of the chained promise as an `Except`:
fetching is an external function `fetchFn` from a URL to a response or an
error, the cache is an association list of stored (request, response)
pairs, and `cacheAddAll` folds over the asset list, aborting at the first
fetch failure with that failure as the result. -/

/-- `ASSETS_TO_CACHE` of sw.js lines 6-15, verbatim. -/
def ASSETS_TO_CACHE : List String :=
  ["/", "/index.html", "/styles.css", "/app.js", "/holidays.js",
   "/manifest.json", "/icon-192.png", "/icon-512.png"]

/-- `cache.addAll(assets)`: fetch and store every asset, propagating the
first failure. -/
def cacheAddAll (fetchFn : String → Except String String)
    (cache : List (String × String)) : List String → Except String (List (String × String))
  | [] => Except.ok cache
  | a :: rest =>
    match fetchFn a with
    | Except.error e => Except.error e
    | Except.ok resp => cacheAddAll fetchFn (cache ++ [(a, resp)]) rest

/-- The install event handler of sw.js lines 18-30: populate a fresh cache
with the full manifest; the result is the settled state of the promise
passed to `event.waitUntil` (`Except.ok` = install signals success). -/
def installEvent (fetchFn : String → Except String String) :
    Except String (List (String × String)) :=
  cacheAddAll fetchFn [] ASSETS_TO_CACHE

theorem cacheAddAll_spec (fetchFn : String → Except String String)
    (assets : List String) : ∀ cache,
    ((∃ c, cacheAddAll fetchFn cache assets = Except.ok c) ↔
        ∀ a ∈ assets, ∃ r, fetchFn a = Except.ok r) ∧
    (∀ c, cacheAddAll fetchFn cache assets = Except.ok c →
        (∀ p ∈ cache, p ∈ c) ∧
        ∀ a ∈ assets, ∃ r, fetchFn a = Except.ok r ∧ (a, r) ∈ c) ∧
    (∀ e, cacheAddAll fetchFn cache assets = Except.error e →
        ∃ a ∈ assets, fetchFn a = Except.error e) := by
  induction assets with
  | nil =>
    intro cache
    refine ⟨?_, ?_, ?_⟩
    · simp [cacheAddAll]
    · intro c hc
      simp only [cacheAddAll, Except.ok.injEq] at hc
      subst hc
      simp
    · intro e he
      simp [cacheAddAll] at he
  | cons a rest ih =>
    intro cache
    cases hfa : fetchFn a with
    | error e0 =>
      refine ⟨?_, ?_, ?_⟩
      · simp only [cacheAddAll, hfa]
        constructor
        · rintro ⟨c, hc⟩
          cases hc
        · intro hall
          obtain ⟨r, hr⟩ := hall a (List.mem_cons_self a rest)
          rw [hfa] at hr
          cases hr
      · intro c hc
        simp only [cacheAddAll, hfa] at hc
        cases hc
      · intro e he
        simp only [cacheAddAll, hfa, Except.error.injEq] at he
        subst he
        exact ⟨a, List.mem_cons_self a rest, hfa⟩
    | ok resp =>
      obtain ⟨ih1, ih2, ih3⟩ := ih (cache ++ [(a, resp)])
      refine ⟨?_, ?_, ?_⟩
      · simp only [cacheAddAll, hfa]
        rw [ih1]
        constructor
        · intro hall b hb
          rcases List.mem_cons.mp hb with rfl | hb
          · exact ⟨resp, hfa⟩
          · exact hall b hb
        · intro hall b hb
          exact hall b (List.mem_cons_of_mem a hb)
      · intro c hc
        simp only [cacheAddAll, hfa] at hc
        obtain ⟨hacc, hrest⟩ := ih2 c hc
        constructor
        · intro p hp
          exact hacc p (List.mem_append_left _ hp)
        · intro b hb
          rcases List.mem_cons.mp hb with rfl | hb
          · exact ⟨resp, hfa, hacc (b, resp) (List.mem_append_right _ (List.mem_singleton.mpr rfl))⟩
          · exact hrest b hb
      · intro e he
        simp only [cacheAddAll, hfa] at he
        obtain ⟨b, hb, hbe⟩ := ih3 e he
        exact ⟨b, List.mem_cons_of_mem a hb, hbe⟩

/-- C9: the install step succeeds iff every asset of the fixed manifest
fetches successfully; on success every asset has been fetched and its
response stored in the cache; on any fetch failure the install attempt
fails, and with exactly the underlying fetch failure as its outcome. -/
theorem C9_install_all_or_nothing (fetchFn : String → Except String String) :
    ((∃ c, installEvent fetchFn = Except.ok c) ↔
        ∀ a ∈ ASSETS_TO_CACHE, ∃ r, fetchFn a = Except.ok r) ∧
    (∀ c, installEvent fetchFn = Except.ok c →
        ∀ a ∈ ASSETS_TO_CACHE, ∃ r, fetchFn a = Except.ok r ∧ (a, r) ∈ c) ∧
    (∀ e, installEvent fetchFn = Except.error e →
        ∃ a ∈ ASSETS_TO_CACHE, fetchFn a = Except.error e) := by
  obtain ⟨h1, h2, h3⟩ := cacheAddAll_spec fetchFn ASSETS_TO_CACHE []
  exact ⟨h1, fun c hc => (h2 c hc).2, h3⟩

/-- Witness for `C9_install_all_or_nothing`: with every fetch succeeding,
install succeeds; and given a fetch that fails on `/styles.css`, the
failing install's error is traced back to an asset in the manifest. -/
theorem C9_install_all_or_nothing_witness :
    (∃ c, installEvent (fun a => Except.ok a) = Except.ok c) ∧
    (∃ a ∈ ASSETS_TO_CACHE,
      (fun a => if a = "/styles.css"
          then (Except.error "netfail" : Except String String)
          else Except.ok a) a = Except.error "netfail") := by
  constructor
  · exact (C9_install_all_or_nothing (fun a => Except.ok a)).1.mpr (fun a _ => ⟨a, rfl⟩)
  · exact (C9_install_all_or_nothing _).2.2 "netfail" rfl

/-! ## Dashboard to-do section -/

/-- `renderDashboardTodos()` of app.js lines 380-407: the items actually
rendered are `todos.filter(t => !t.completed).slice(0, 10)`. -/
def renderDashboardTodoItems (todos : List TodoItem) : List TodoItem :=
  (todos.filter (fun t => !t.completed)).take 10

/-- C10: the dashboard to-do section renders only to-dos with
`completed == false`; at most 10 items; the rendered list is exactly an
initial segment (in stored order) of the incomplete to-dos, so incomplete
items from the eleventh onward are omitted, and every incomplete item at
position < 10 among the incompletes is rendered. -/
theorem C10_dashboard_todos (todos : List TodoItem) :
    (∀ t ∈ renderDashboardTodoItems todos, t.completed = false) ∧
    (renderDashboardTodoItems todos).length ≤ 10 ∧
    (∃ rest, todos.filter (fun t => !t.completed)
        = renderDashboardTodoItems todos ++ rest) ∧
    (∀ (i : Nat) (hi : i < (todos.filter (fun t => !t.completed)).length), i < 10 →
        (todos.filter (fun t => !t.completed)).get ⟨i, hi⟩
          ∈ renderDashboardTodoItems todos) := by
  refine ⟨?_, ?_, ?_, ?_⟩
  · intro t ht
    have hmem := List.mem_of_mem_take ht
    have := (List.mem_filter.mp hmem).2
    simp only [Bool.not_eq_true'] at this
    exact this
  · rw [show renderDashboardTodoItems todos
        = (todos.filter (fun t => !t.completed)).take 10 from rfl, List.length_take]
    exact min_le_left _ _
  · refine ⟨(todos.filter (fun t => !t.completed)).drop 10, ?_⟩
    rw [show renderDashboardTodoItems todos
        = (todos.filter (fun t => !t.completed)).take 10 from rfl]
    exact (List.take_append_drop 10 _).symm
  · intro i hi h10
    have hlen : i < (renderDashboardTodoItems todos).length := by
      rw [show renderDashboardTodoItems todos
          = (todos.filter (fun t => !t.completed)).take 10 from rfl, List.length_take]
      omega
    have hget : (renderDashboardTodoItems todos).get ⟨i, hlen⟩
        = (todos.filter (fun t => !t.completed)).get ⟨i, hi⟩ := by
      simp [renderDashboardTodoItems, List.getElem_take']
    rw [← hget]
    exact List.get_mem _ i hlen

/-- A concrete incomplete to-do. -/
def todoW : TodoItem := { id := "t1", text := "buy milk", completed := false, createdAt := "0" }

/-- Witness for `C10_dashboard_todos`: in a store with one incomplete
to-do, the first incomplete item is rendered on the dashboard. -/
theorem C10_dashboard_todos_witness :
    (List.filter (fun t => !t.completed) [todoW]).get ⟨0, by decide⟩
      ∈ renderDashboardTodoItems [todoW] :=
  (C10_dashboard_todos [todoW]).2.2.2 0 (by decide) (by decide)
